import Mathlib

/-!
Verification of the URL-summarizer pipeline of `typhoon_UI.py`
(repository `spped2000/typhoon-webui`).

Python strings are modelled as `List Char` (`PyStr`).  The pure parts of the
program (`chunk_text`, the error-string constructions, the prompt builders,
and the control flow of `summarize_url`) are translated directly from the
source.  The effectful parts (the HTTP fetch and the two remote completion
calls) are modelled by an oracle (`World`) that supplies the outcome of each
external call, and `summarize_url` additionally records each external call it
performs in an event log, so that claims of the form "X is never invoked" can
be stated.  Progress-bar callbacks (`gr.Progress`) are pure presentation and
are not modelled.
-/

namespace TyphoonUI

/-- PyStr models a Python `str` as its list of characters. -/
abbrev PyStr := List Char

/-- pstr converts a Lean string literal to the `PyStr` model. -/
def pstr (s : String) : PyStr := s.data

/-- isPySpace models Python's whitespace class used by `str.split()` and
`str.strip()` (the six ASCII whitespace characters). -/
def isPySpace (c : Char) : Bool :=
  c == ' ' || c == '\t' || c == '\n' || c == '\r' || c == '\x0b' || c == '\x0c'

/-- notSpace is the complement of `isPySpace`. -/
def notSpace (c : Char) : Bool := !isPySpace c

/-- pySplitAux is the accumulating pass behind `pySplit`; `acc` holds the
characters of the word currently being read, in reverse order. -/
def pySplitAux : PyStr → PyStr → List PyStr
  | [], acc => if acc = [] then [] else [acc.reverse]
  | c :: cs, acc =>
    if isPySpace c then
      if acc = [] then pySplitAux cs []
      else acc.reverse :: pySplitAux cs []
    else pySplitAux cs (c :: acc)

/-- pySplit models Python `text.split()` (no argument): split on runs of
whitespace, discarding empty pieces. -/
def pySplit (s : PyStr) : List PyStr := pySplitAux s []

/-- joinSp models Python `' '.join(words)`. -/
def joinSp : List PyStr → PyStr
  | [] => []
  | [w] => w
  | w :: x :: xs => w ++ ' ' :: joinSp (x :: xs)

/-- pyStrip models Python `s.strip()` (default whitespace stripping). -/
def pyStrip (s : PyStr) : PyStr :=
  ((s.dropWhile isPySpace).reverse.dropWhile isPySpace).reverse

/-- pyStartswith models Python `s.startswith(p)`. -/
def pyStartswith (s p : PyStr) : Bool := p.isPrefixOf s

/-- isSubstr models Python `p in s` (contiguous substring test). -/
def isSubstr (p : PyStr) : PyStr → Bool
  | [] => p.isEmpty
  | c :: cs => p.isPrefixOf (c :: cs) || isSubstr p cs

/-- natStr models Python string interpolation of an integer, `f"{n}"`. -/
def natStr (n : Nat) : PyStr := (Nat.repr n).data

/-! ### The chunker (`URLSummarizer.chunk_text`, lines 56-75) -/

/-- ChunkState is the loop state of `chunk_text`: the finished `chunks`, the
word list `current_chunk`, and the running `current_size`. -/
structure ChunkState where
  chunks : List PyStr
  current : List PyStr
  size : Nat

/-- chunkStep is one iteration of the `for word in words` loop of
`chunk_text` (lines 63-70). -/
def chunkStep (chunk_size : Nat) (st : ChunkState) (word : PyStr) : ChunkState :=
  if st.size + word.length + 1 > chunk_size then
    ⟨st.chunks ++ [joinSp st.current], [word], word.length⟩
  else
    ⟨st.chunks, st.current ++ [word], st.size + word.length + 1⟩

/-- chunk_text models `URLSummarizer.chunk_text(text, chunk_size)`
(lines 56-75): split into words, fold the accumulation loop, then flush the
final nonempty chunk. -/
def chunk_text (text : PyStr) (chunk_size : Nat) : List PyStr :=
  let st := (pySplit text).foldl (chunkStep chunk_size) ⟨[], [], 0⟩
  if st.current ≠ [] then st.chunks ++ [joinSp st.current] else st.chunks

/-! ### Error strings (the string-tagged error taxonomy) -/

/-- errorSentinel is the fixed heading tested by
`summary.startswith("## ⚠️ ข้อผิดพลาด")` at lines 207 and 222. -/
def errorSentinel : PyStr := pstr "## ⚠️ ข้อผิดพลาด"

/-- configError is the missing-credential error of `summarize_url` (line 164). -/
def configError : PyStr :=
  pstr "## ⚠️ ข้อผิดพลาด\nไม่พบ API key ในการตั้งค่าสภาพแวดล้อม กรุณาตั้งค่า TYPHOON_API_KEY"

/-- emptyUrlError is the empty-URL validation error (line 171). -/
def emptyUrlError : PyStr := pstr "## ⚠️ ข้อผิดพลาด\nกรุณากรอก URL"

/-- fetchFallbackError is returned when the fetch produced a falsy value (line 181). -/
def fetchFallbackError : PyStr := pstr "## ⚠️ ข้อผิดพลาด\nไม่สามารถดึงข้อมูลจาก URL ได้"

/-- emptyContentError is returned for whitespace-only page text (line 185). -/
def emptyContentError : PyStr := pstr "## ⚠️ ข้อผิดพลาด\nไม่พบเนื้อหาจาก URL ที่ระบุ"

/-- totalFailureError is the generic could-not-summarize error (lines 211 and 225). -/
def totalFailureError : PyStr := pstr "## ⚠️ ข้อผิดพลาด\nไม่สามารถสรุปเนื้อหาได้"

/-- apiKeyMissingError is the guard error of `summarize_chunk` and
`combine_summaries` (lines 80 and 121). -/
def apiKeyMissingError : PyStr := pstr "## ⚠️ ข้อผิดพลาด\nAPI key ไม่ถูกกำหนด"

/-- chunkFailError models the f-string of line 116: the per-chunk error,
embedding the chunk index and the exception text. -/
def chunkFailError (chunk_num : Nat) (e : PyStr) : PyStr :=
  pstr "## ⚠️ ข้อผิดพลาด\nเกิดปัญหาในการสรุปส่วนที่ " ++ natStr chunk_num ++ pstr ": " ++ e

/-- combineFailError models the f-string of line 158: the recombination error. -/
def combineFailError (e : PyStr) : PyStr :=
  pstr "## ⚠️ ข้อผิดพลาด\nเกิดปัญหาในการรวมบทสรุป: " ++ e

/-- load_from_url_error models the f-string of line 54: the Fetcher converts
any exception `e` into the string `"Error: " + str(e)`. -/
def load_from_url_error (e : PyStr) : PyStr := pstr "Error: " ++ e

/-! ### The summarization client (`summarize_chunk` / `combine_summaries`) -/

/-- ApiResult is the outcome of one remote completion call: the model's text,
or the text of the exception the call raised. -/
inductive ApiResult where
  | ok (text : PyStr)
  | exn (msg : PyStr)
deriving DecidableEq

/-- markerText is the closing-marker fragment
`f"[End of Summary, Message #{n}]"` used in both prompts (lines 99 and 140). -/
def markerText (n : Nat) : PyStr :=
  pstr "[End of Summary, Message #" ++ natStr n ++ pstr "]"

/-- summarize_chunk_prompt models the user prompt of `summarize_chunk`
(lines 84-103): the optional part context followed by the guideline list;
guideline 8 carries the closing marker with the session counter only when the
content is not one part of many. -/
def summarize_chunk_prompt (counter : Nat) (content : PyStr) (is_chunk : Bool)
    (chunk_num total_chunks : Nat) : PyStr :=
  (if is_chunk then
    pstr "This is part " ++ natStr chunk_num ++ pstr " of " ++ natStr total_chunks ++
      pstr " of the full content. "
  else []) ++
  pstr "Please summarize the following content according to these guidelines:\n\n1. Focus on key points, main concepts, and important details\n2. Use clear section headings with markdown (## for headings)\n3. Use **bold** for emphasis on important terms\n4. Use *italics* for names, titles, and secondary emphasis\n5. Use bullet points or numbered lists where appropriate\n6. Use markdown block quotes (>) for quotations or highlighted text\n7. Format for easy reading with paragraph breaks\n8. " ++
  (if is_chunk then [] else pstr "End with " ++ markerText counter) ++
  pstr "\n\nCONTENT TO SUMMARIZE:\n" ++ content ++ pstr "\n"

/-- summarize_chunk models `URLSummarizer.summarize_chunk` (lines 77-116):
if the client is falsy, the key-missing error; otherwise the remote call's
text verbatim, or the per-chunk error string embedding `chunk_num` on an
exception.  `outcome` is the oracle's answer for this remote call. -/
def summarize_chunk (clientOk : Bool) (outcome : ApiResult) (chunk_num : Nat) : PyStr :=
  if !clientOk then apiKeyMissingError
  else
    match outcome with
    | .ok t => t
    | .exn e => chunkFailError chunk_num e

/-- joinBlank models Python `"\n\n".join(summaries)` (line 123). -/
def joinBlank : List PyStr → PyStr
  | [] => []
  | [s] => s
  | s :: t :: ts => s ++ '\n' :: '\n' :: joinBlank (t :: ts)

/-- combine_prompt models the user prompt of `combine_summaries`
(lines 123-144): the guideline list, whose item 6 carries the closing marker
with the session counter value current at call time, followed by the partial
summaries joined by blank lines. -/
def combine_prompt (counter : Nat) (summaries : List PyStr) : PyStr :=
  pstr "Please combine these summaries into one coherent summary according to these guidelines:\n\n1. Ensure the summary flows naturally as one complete text\n2. Remove any redundancies or repetitions\n3. Ensure all key information is preserved\n4. Use markdown formatting to enhance readability:\n   - ## for section headings\n   - **bold** for important terms\n   - *italics* for names and titles\n   - Bullet points or numbered lists where appropriate\n   - > blockquotes for important quotes\n5. Add a # main title at the top\n6. End with " ++
  markerText counter ++
  pstr "\n\nSUMMARIES TO COMBINE:\n" ++ joinBlank summaries ++ pstr "\n"

/-- CombineOutcome is the observable behaviour of one `combine_summaries`
call: the returned string, the session counter after the call, and the prompt
it built (`none` when the client guard returned before building one). -/
structure CombineOutcome where
  result : PyStr
  counter : Nat
  prompt : Option PyStr
deriving DecidableEq

/-- combine_summaries models `URLSummarizer.combine_summaries`
(lines 118-158): guard on the client, build the prompt from the current
counter, then on a successful remote call increment `message_counter` and
return the text; on an exception return the recombination error with the
counter unchanged. -/
def combine_summaries (clientOk : Bool) (outcome : ApiResult) (counter : Nat)
    (summaries : List PyStr) : CombineOutcome :=
  if !clientOk then ⟨apiKeyMissingError, counter, none⟩
  else
    match outcome with
    | .ok t => ⟨t, counter + 1, some (combine_prompt counter summaries)⟩
    | .exn e => ⟨combineFailError e, counter, some (combine_prompt counter summaries)⟩

/-! ### The aggregator (`summarize_url`, lines 160-225) -/

/-- Event records one externally visible call performed by `summarize_url`:
the page fetch, the (pure) chunking step, one per-chunk summarization call,
or the recombination call with the summaries passed to it. -/
inductive Event where
  | fetchCall (url : PyStr)
  | chunkingCall (content : PyStr)
  | chunkCall (i : Nat)
  | combineCall (summaries : List PyStr)
deriving DecidableEq

/-- combineCalls extracts the argument lists of all recombination calls from
an event log. -/
def combineCalls (evs : List Event) : List (List PyStr) :=
  evs.filterMap fun e =>
    match e with
    | .combineCall ss => some ss
    | _ => none

/-- World is the oracle for one `summarize_url` run: truthiness of
`TYPHOON_API_KEY`, truthiness of `self.client`, the string `load_from_url`
returns, and the outcome of the `i`-th per-chunk remote call and of the
recombination remote call. -/
structure World where
  apiKey : Bool
  clientOk : Bool
  fetch : PyStr
  chunkApi : Nat → ApiResult
  combineApi : ApiResult

/-- isGoodSummary is the collection filter of line 207:
`if summary and not summary.startswith("## ⚠️ ข้อผิดพลาด")`. -/
def isGoodSummary (s : PyStr) : Bool :=
  !s.isEmpty && !(pyStartswith s errorSentinel)

/-- finalize models lines 222-225: return the summary when it is truthy and
not error-tagged, else the summary when truthy, else the generic error. -/
def finalize (summary : PyStr) : PyStr :=
  if isGoodSummary summary then summary
  else if summary ≠ [] then summary
  else totalFailureError

/-- normalize_url models lines 174-175: prepend `https://` when the URL has
no scheme. -/
def normalize_url (url : PyStr) : PyStr :=
  if pyStartswith url (pstr "http://") || pyStartswith url (pstr "https://") then url
  else pstr "https://" ++ url

/-- multiResults is the sequence of strings returned by the per-chunk
summarization calls of the multi-chunk loop (lines 203-206): the `i`-th call
is made with `chunk_num = i+1`. -/
def multiResults (w : World) (n : Nat) : List PyStr :=
  (List.range n).map fun i => summarize_chunk w.clientOk (w.chunkApi i) (i + 1)

/-- successes is `chunk_summaries` after the multi-chunk loop: the results
that pass the line-207 filter, in call order. -/
def successes (w : World) (n : Nat) : List PyStr :=
  (multiResults w n).filter isGoodSummary

/-- RunResult is the observable outcome of one `summarize_url` run: the
returned string, the log of external calls, and the session counter after the
run. -/
structure RunResult where
  result : PyStr
  events : List Event
  counter : Nat
deriving DecidableEq

/-- summarize_url models `URLSummarizer.summarize_url(url)` (lines 160-225),
with `counter` the value of `self.message_counter` at entry:
check the key, validate the URL, normalize the scheme, fetch, reject error or
empty content, chunk with the default budget 10000, then either summarize the
single chunk or summarize every chunk, keep the passing results, and return
the lone success or the recombination result, all finished by the lines
222-225 fallback. -/
def summarize_url (w : World) (counter : Nat) (url : PyStr) : RunResult :=
  if !w.apiKey then ⟨configError, [], counter⟩
  else if url = [] then ⟨emptyUrlError, [], counter⟩
  else
    let url1 := normalize_url url
    let content := w.fetch
    if content = [] ∨ pyStartswith content (pstr "Error:") = true then
      ⟨if content ≠ [] then content else fetchFallbackError, [.fetchCall url1], counter⟩
    else if pyStrip content = [] then
      ⟨emptyContentError, [.fetchCall url1], counter⟩
    else
      let chunks := chunk_text content 10000
      if chunks.length = 1 then
        ⟨finalize (summarize_chunk w.clientOk (w.chunkApi 0) 0),
         [.fetchCall url1, .chunkingCall content, .chunkCall 0], counter⟩
      else
        let n := chunks.length
        let evs := [Event.fetchCall url1, Event.chunkingCall content] ++
          (List.range n).map Event.chunkCall
        let chunk_summaries := successes w n
        if chunk_summaries = [] then ⟨totalFailureError, evs, counter⟩
        else if chunk_summaries.length = 1 then
          ⟨finalize (chunk_summaries.headD []), evs, counter⟩
        else
          let cc := combine_summaries w.clientOk w.combineApi counter chunk_summaries
          ⟨finalize cc.result, evs ++ [.combineCall chunk_summaries], cc.counter⟩

/-! ### Basic lemmas on the string primitives -/

/-- isWordB states that a string is a word as produced by `pySplit`:
nonempty and free of whitespace. -/
def isWordB (w : PyStr) : Bool := !w.isEmpty && w.all notSpace

theorem isPrefixOf_append_self (p s : PyStr) : p.isPrefixOf (p ++ s) = true := by
  induction p with
  | nil => simp [List.isPrefixOf]
  | cons a as ih => simp [List.isPrefixOf, ih]

theorem pyStartswith_of_append {s p r : PyStr} (h : s = p ++ r) :
    pyStartswith s p = true := by
  subst h
  exact isPrefixOf_append_self p r

theorem isSubstr_of_append (a p b : PyStr) : isSubstr p (a ++ (p ++ b)) = true := by
  induction a with
  | nil =>
    cases hp : p ++ b with
    | nil =>
      rcases List.append_eq_nil.mp hp with ⟨h1, _⟩
      simp [isSubstr, h1, List.isEmpty]
    | cons c cs => simp [isSubstr, ← hp, isPrefixOf_append_self]
  | cons x xs ih => simp [isSubstr, ih]

theorem takeWhile_append_all {p : Char → Bool} {w : PyStr} (t : PyStr)
    (hw : ∀ c ∈ w, p c = true) :
    List.takeWhile p (w ++ t) = w ++ List.takeWhile p t := by
  induction w with
  | nil => simp
  | cons a as ih =>
    have ha : p a = true := hw a (by simp)
    simp only [List.cons_append, List.takeWhile_cons, ha, if_true]
    simp [ih fun c hc => hw c (by simp [hc])]

theorem dropWhile_append_all {p : Char → Bool} {w : PyStr} (t : PyStr)
    (hw : ∀ c ∈ w, p c = true) :
    List.dropWhile p (w ++ t) = List.dropWhile p t := by
  induction w with
  | nil => simp
  | cons a as ih =>
    have ha : p a = true := hw a (by simp)
    simp only [List.cons_append, List.dropWhile_cons, ha, if_true]
    exact ih fun c hc => hw c (by simp [hc])

theorem dropWhile_head_false {p : Char → Bool} :
    ∀ {l d : _} {t : PyStr}, List.dropWhile p l = d :: t → p d = false
  | [], d, t, h => by simp at h
  | a :: l, d, t, h => by
    by_cases ha : p a = true
    · rw [List.dropWhile_cons, if_pos ha] at h
      exact dropWhile_head_false h
    · rw [List.dropWhile_cons, if_neg ha] at h
      cases h
      exact Bool.not_eq_true _ ▸ ha

/-! ### Unfolding equations and word structure of `pySplit` -/

theorem pySplitAux_acc (s : PyStr) : ∀ acc : PyStr, acc ≠ [] →
    pySplitAux s acc =
      (acc.reverse ++ s.takeWhile notSpace) :: pySplit (s.dropWhile notSpace) := by
  induction s with
  | nil => intro acc hacc; simp [pySplitAux, hacc, pySplit]
  | cons c cs ih =>
    intro acc hacc
    by_cases hc : isPySpace c = true
    · have hns : notSpace c = false := by simp [notSpace, hc]
      simp [pySplitAux, hc, hacc, List.takeWhile_cons, List.dropWhile_cons, hns, pySplit]
    · have hc' : isPySpace c = false := Bool.not_eq_true _ ▸ hc
      have hns : notSpace c = true := by simp [notSpace, hc']
      simp only [pySplitAux, hc', Bool.false_eq_true, if_false,
        List.takeWhile_cons, List.dropWhile_cons, hns, if_true]
      rw [ih (c :: acc) (by simp)]
      simp

theorem pySplit_nil : pySplit [] = [] := rfl

theorem pySplit_cons_space {c : Char} (cs : PyStr) (h : isPySpace c = true) :
    pySplit (c :: cs) = pySplit cs := by
  simp [pySplit, pySplitAux, h]

theorem pySplit_cons_word {c : Char} (cs : PyStr) (h : isPySpace c = false) :
    pySplit (c :: cs) =
      (c :: cs.takeWhile notSpace) :: pySplit (cs.dropWhile notSpace) := by
  have h0 : pySplit (c :: cs) = pySplitAux cs [c] := by
    simp [pySplit, pySplitAux, h]
  rw [h0, pySplitAux_acc cs [c] (by simp)]
  simp

theorem pySplit_words : ∀ (s : PyStr), ∀ w ∈ pySplit s, isWordB w = true := by
  have main : ∀ (s acc : PyStr), (∀ c ∈ acc, notSpace c = true) →
      ∀ w ∈ pySplitAux s acc, isWordB w = true := by
    intro s
    induction s with
    | nil =>
      intro acc hacc w hw
      by_cases ha : acc = []
      · simp [pySplitAux, ha] at hw
      · simp only [pySplitAux, if_neg ha, List.mem_singleton] at hw
        subst hw
        simp only [isWordB, Bool.and_eq_true, Bool.not_eq_true', List.isEmpty_eq_false,
          List.all_eq_true]
        exact ⟨by simpa using ha, fun c hc => hacc c (by simpa using hc)⟩
    | cons c cs ih =>
      intro acc hacc w hw
      by_cases hc : isPySpace c = true
      · by_cases ha : acc = []
        · simp only [pySplitAux, hc, if_true, ha, if_pos rfl] at hw
          exact ih [] (by simp) w hw
        · simp only [pySplitAux, hc, if_true, if_neg ha, List.mem_cons] at hw
          rcases hw with hw | hw
          · subst hw
            simp only [isWordB, Bool.and_eq_true, Bool.not_eq_true', List.isEmpty_eq_false,
              List.all_eq_true]
            exact ⟨by simpa using ha, fun d hd => hacc d (by simpa using hd)⟩
          · exact ih [] (by simp) w hw
      · have hc' : isPySpace c = false := Bool.not_eq_true _ ▸ hc
        simp only [pySplitAux, hc', Bool.false_eq_true, if_false] at hw
        refine ih (c :: acc) ?_ w hw
        intro d hd
        rcases List.mem_cons.mp hd with hd | hd
        · subst hd; simp [notSpace, hc']
        · exact hacc d hd
  intro s w hw
  exact main s [] (by simp) w hw

theorem pySplit_word_append {w : PyStr} (t : PyStr) (hw : isWordB w = true)
    (ht : t = [] ∨ ∃ d t', t = d :: t' ∧ isPySpace d = true) :
    pySplit (w ++ t) = w :: pySplit t := by
  rcases w with _ | ⟨c, w'⟩
  · simp [isWordB] at hw
  · simp only [isWordB, Bool.and_eq_true, Bool.not_eq_true', List.isEmpty_eq_false,
      List.all_eq_true] at hw
    have hcw : notSpace c = true := hw.2 c (by simp)
    have hc : isPySpace c = false := by
      have := hcw
      simp [notSpace] at this
      exact this
    have hall : ∀ d ∈ w', notSpace d = true := fun d hd => hw.2 d (by simp [hd])
    rw [List.cons_append, pySplit_cons_word (w' ++ t) hc,
      takeWhile_append_all t hall, dropWhile_append_all t hall]
    rcases ht with ht | ⟨d, t', ht, hd⟩
    · subst ht; simp
    · subst ht
      have hnd : notSpace d = false := by simp [notSpace, hd]
      rw [List.takeWhile_cons, if_neg (by simp [hnd]), List.dropWhile_cons,
        if_neg (by simp [hnd])]
      simp

/-! ### Lemmas on `joinSp` -/

theorem joinSp_nil : joinSp [] = [] := rfl

theorem joinSp_singleton (w : PyStr) : joinSp [w] = w := rfl

theorem joinSp_cons_cons (w x : PyStr) (xs : List PyStr) :
    joinSp (w :: x :: xs) = w ++ ' ' :: joinSp (x :: xs) := rfl

theorem joinSp_append {as : List PyStr} (bs : List PyStr) (ha : as ≠ [])
    (hb : bs ≠ []) : joinSp (as ++ bs) = joinSp as ++ ' ' :: joinSp bs := by
  induction as with
  | nil => exact absurd rfl ha
  | cons a as ih =>
    cases as with
    | nil =>
      cases bs with
      | nil => exact absurd rfl hb
      | cons b bs => simp [joinSp_cons_cons, joinSp_singleton]
    | cons a' as' =>
      rw [List.cons_append, List.cons_append, joinSp_cons_cons,
        ← List.cons_append, ih (by simp), joinSp_cons_cons]
      simp

theorem joinSp_append_singleton {as : List PyStr} (w : PyStr) (ha : as ≠ []) :
    joinSp (as ++ [w]) = joinSp as ++ ' ' :: w := by
  rw [joinSp_append [w] ha (by simp), joinSp_singleton]

theorem joinSp_length_append_singleton {as : List PyStr} (w : PyStr) (ha : as ≠ []) :
    (joinSp (as ++ [w])).length = (joinSp as).length + 1 + w.length := by
  rw [joinSp_append_singleton w ha]
  simp
  omega

theorem joinSp_length_le_append (as bs : List PyStr) :
    (joinSp as).length ≤ (joinSp (as ++ bs)).length := by
  by_cases ha : as = []
  · simp [ha, joinSp_nil]
  · by_cases hb : bs = []
    · simp [hb]
    · rw [joinSp_append bs ha hb]
      simp

/-- pySplit_joinSp: joining a list of words with single spaces and re-splitting
recovers exactly that list. -/
theorem pySplit_joinSp : ∀ ws : List PyStr, (∀ w ∈ ws, isWordB w = true) →
    pySplit (joinSp ws) = ws := by
  intro ws
  induction ws with
  | nil => intro _; simp [joinSp_nil, pySplit_nil]
  | cons w ws ih =>
    intro hws
    cases ws with
    | nil =>
      rw [joinSp_singleton, ← List.append_nil w,
        pySplit_word_append [] (hws w (by simp)) (Or.inl rfl)]
      simp [pySplit_nil]
    | cons x xs =>
      rw [joinSp_cons_cons,
        pySplit_word_append (' ' :: joinSp (x :: xs)) (hws w (by simp))
          (Or.inr ⟨' ', joinSp (x :: xs), rfl, by decide⟩),
        pySplit_cons_space _ (by decide)]
      rw [ih fun u hu => hws u (by simp [hu])]

/-- pySplit_joinSp_length: the whitespace-normalized text is never longer than
the original text. -/
theorem pySplit_joinSp_length : ∀ s : PyStr,
    (joinSp (pySplit s)).length ≤ s.length ∧
      (∀ d t, s = d :: t → isPySpace d = true →
        (joinSp (pySplit s)).length ≤ t.length) := by
  intro s
  have H : ∀ n, ∀ s : PyStr, s.length ≤ n →
      (joinSp (pySplit s)).length ≤ s.length ∧
        (∀ d t, s = d :: t → isPySpace d = true →
          (joinSp (pySplit s)).length ≤ t.length) := by
    intro n
    induction n with
    | zero =>
      intro s hs
      have : s = [] := List.length_eq_zero.mp (Nat.le_zero.mp hs)
      subst this
      exact ⟨by simp [pySplit_nil, joinSp_nil], fun d t h => by simp at h⟩
    | succ n ih =>
      intro s hs
      cases s with
      | nil => exact ⟨by simp [pySplit_nil, joinSp_nil], fun d t h => by simp at h⟩
      | cons c cs =>
        have hcs : cs.length ≤ n := by simpa using hs
        by_cases hc : isPySpace c = true
        · have h1 := (ih cs hcs).1
          rw [pySplit_cons_space cs hc]
          constructor
          · exact Nat.le_trans h1 (by simp)
          · intro d t het _
            cases het
            exact h1
        · have hc' : isPySpace c = false := Bool.not_eq_true _ ▸ hc
          rw [pySplit_cons_word cs hc']
          have hsplit : cs.takeWhile notSpace ++ cs.dropWhile notSpace = cs :=
            List.takeWhile_append_dropWhile notSpace cs
          have hlen : (cs.takeWhile notSpace).length + (cs.dropWhile notSpace).length
              = cs.length := by
            have h := congrArg List.length hsplit
            rwa [List.length_append] at h
          constructor
          · cases hrest : pySplit (cs.dropWhile notSpace) with
            | nil =>
              rw [joinSp_singleton]
              simp
              omega
            | cons r rs =>
              rw [joinSp_cons_cons]
              have hdw : cs.dropWhile notSpace ≠ [] := by
                intro hdw
                rw [hdw, pySplit_nil] at hrest
                exact List.noConfusion hrest
              rcases hd : cs.dropWhile notSpace with _ | ⟨d, t⟩
              · exact absurd hd hdw
              · have hdns : notSpace d = false := dropWhile_head_false hd
                have hdsp : isPySpace d = true := by
                  have := hdns
                  simp [notSpace] at this
                  exact this
                have hdlen : (cs.dropWhile notSpace).length ≤ cs.length :=
                  (List.dropWhile_sublist notSpace).length_le
                have h2 := ((ih (cs.dropWhile notSpace)
                  (Nat.le_trans hdlen hcs)).2) d t hd hdsp
                rw [hrest] at h2
                have hdrop : (cs.dropWhile notSpace).length = t.length + 1 := by
                  rw [hd]; simp
                simp only [List.length_cons, List.length_append]
                omega
          · intro d t het
            cases het
            intro hd
            rw [hd] at hc'
            exact absurd hc' (by simp)

  exact H s.length s (Nat.le_refl _)

/-! ### The chunk-loop invariant -/

/-- wordsOK: every element of the list is a whitespace-free nonempty word. -/
def wordsOK (ws : List PyStr) : Prop := ∀ w ∈ ws, isWordB w = true

/-- chunkOK: the output condition on one chunk: it respects the budget unless
it is a single word, and it is exactly its words joined by single spaces. -/
def chunkOK (B : Nat) (c : PyStr) : Prop :=
  (c.length ≤ B ∨ (pySplit c).length = 1) ∧ c = joinSp (pySplit c)

/-- ChunkInv is the invariant of the word loop of `chunk_text`: the words of
the closed chunks followed by the words of the open chunk are exactly the
words processed so far; closed chunks satisfy `chunkOK`; and `current_size`
tracks the joined length of the open chunk (exactly, or one more when the
open chunk was started by the `else` branch from the initial empty state). -/
def ChunkInv (B : Nat) (processed : List PyStr) (st : ChunkState) : Prop :=
  ((st.chunks.map pySplit).flatten ++ st.current = processed) ∧
  (∀ c ∈ st.chunks, chunkOK B c) ∧
  wordsOK st.current ∧
  (joinSp st.current).length ≤ st.size ∧
  st.size ≤ (joinSp st.current).length + 1 ∧
  ((joinSp st.current).length ≤ B ∨ st.current.length = 1) ∧
  (st.current = [] → st.size = 0)

theorem chunkInv_flush {B : Nat} {processed : List PyStr} {st : ChunkState}
    (hinv : ChunkInv B processed st) :
    (((st.chunks ++ [joinSp st.current]).map pySplit).flatten = processed) ∧
      (∀ c ∈ st.chunks ++ [joinSp st.current], chunkOK B c) := by
  obtain ⟨h1, h2, h3, h4, h5, h6, _⟩ := hinv
  have hrt : pySplit (joinSp st.current) = st.current := pySplit_joinSp _ h3
  constructor
  · rw [List.map_append, List.map_singleton, hrt, List.flatten_append]
    simpa using h1
  · intro c hc
    rcases List.mem_append.mp hc with hc | hc
    · exact h2 c hc
    · rw [List.mem_singleton] at hc
      subst hc
      refine ⟨?_, by rw [hrt]⟩
      rcases h6 with h6 | h6
      · left
        have : (joinSp st.current).length ≤ B := h6
        exact this
      · right
        rw [hrt, h6]

theorem chunkInv_step {B : Nat} {processed : List PyStr} {st : ChunkState}
    {w : PyStr} (hinv : ChunkInv B processed st) (hw : isWordB w = true) :
    ChunkInv B (processed ++ [w]) (chunkStep B st w) := by
  obtain ⟨h1, h2, h3, h4, h5, h6, h7⟩ := hinv
  by_cases hg : st.size + w.length + 1 > B
  · have hflush := chunkInv_flush ⟨h1, h2, h3, h4, h5, h6, h7⟩
    rw [chunkStep, if_pos hg]
    refine ⟨?_, ?_, ?_, ?_, ?_, ?_, ?_⟩
    · show ((st.chunks ++ [joinSp st.current]).map pySplit).flatten ++ [w] = processed ++ [w]
      rw [hflush.1]
    · exact hflush.2
    · intro u hu
      rw [List.mem_singleton] at hu
      subst hu
      exact hw
    · simp [joinSp_singleton]
    · simp [joinSp_singleton]
    · right; rfl
    · intro h; exact absurd h (by simp)
  · rw [chunkStep, if_neg hg]
    push_neg at hg
    refine ⟨?_, h2, ?_, ?_, ?_, ?_, ?_⟩
    · show (st.chunks.map pySplit).flatten ++ (st.current ++ [w]) = processed ++ [w]
      rw [← List.append_assoc, h1]
    · intro u hu
      rcases List.mem_append.mp hu with hu | hu
      · exact h3 u hu
      · rw [List.mem_singleton] at hu
        subst hu
        exact hw
    · show (joinSp (st.current ++ [w])).length ≤ st.size + w.length + 1
      by_cases hcur : st.current = []
      · rw [hcur]
        simp [joinSp_singleton]
        omega
      · rw [joinSp_length_append_singleton w hcur]
        omega
    · show st.size + w.length + 1 ≤ (joinSp (st.current ++ [w])).length + 1
      by_cases hcur : st.current = []
      · have hz : st.size = 0 := h7 hcur
        rw [hcur, hz]
        simp [joinSp_singleton]
      · rw [joinSp_length_append_singleton w hcur]
        omega
    · by_cases hcur : st.current = []
      · right
        show (st.current ++ [w]).length = 1
        rw [hcur]
        rfl
      · left
        show (joinSp (st.current ++ [w])).length ≤ B
        rw [joinSp_length_append_singleton w hcur]
        omega
    · intro h
      exact absurd h (by simp)

theorem chunkInv_foldl {B : Nat} :
    ∀ (ws : List PyStr) {processed : List PyStr} {st : ChunkState},
      ChunkInv B processed st → wordsOK ws →
      ChunkInv B (processed ++ ws) (ws.foldl (chunkStep B) st) := by
  intro ws
  induction ws with
  | nil => intro processed st hinv _; simpa using hinv
  | cons w ws ih =>
    intro processed st hinv hws
    rw [List.foldl_cons, List.append_cons]
    exact ih (chunkInv_step hinv (hws w (by simp)))
      (fun u hu => hws u (by simp [hu]))

theorem chunkInv_init (B : Nat) : ChunkInv B [] ⟨[], [], 0⟩ := by
  refine ⟨by simp, by simp, by intro w hw; simp at hw, ?_, ?_, ?_, fun _ => rfl⟩
  · simp [joinSp_nil]
  · simp [joinSp_nil]
  · left; simp [joinSp_nil]

/-- chunk_text_sound: the chunks' word sequences concatenate, in order, to the
word sequence of the input, and every chunk satisfies `chunkOK`. -/
theorem chunk_text_sound (text : PyStr) (B : Nat) :
    (((chunk_text text B).map pySplit).flatten = pySplit text) ∧
      (∀ c ∈ chunk_text text B, chunkOK B c) := by
  have hfold := chunkInv_foldl (B := B) (pySplit text) (chunkInv_init B)
    (fun w hw => pySplit_words text w hw)
  rw [List.nil_append] at hfold
  rw [chunk_text]
  set st := (pySplit text).foldl (chunkStep B) ⟨[], [], 0⟩ with hst
  by_cases hcur : st.current ≠ []
  · rw [if_pos hcur]
    exact chunkInv_flush hfold
  · rw [if_neg hcur]
    push_neg at hcur
    obtain ⟨h1, h2, _⟩ := hfold
    constructor
    · rw [hcur] at h1
      simpa using h1
    · exact h2

/-! ### Further facts about the chunk loop -/

/-- foldl_no_close: while the joined length of everything seen so far stays
under the budget (counting the `+1` slack of a chunk opened from the initial
empty state), the loop never closes a chunk. -/
theorem foldl_no_close {B : Nat} :
    ∀ (ws cur : List PyStr) (size : Nat), cur ≠ [] →
      size = (joinSp cur).length + 1 →
      (joinSp (cur ++ ws)).length + 1 ≤ B →
      List.foldl (chunkStep B) ⟨[], cur, size⟩ ws =
        ⟨[], cur ++ ws, (joinSp (cur ++ ws)).length + 1⟩ := by
  intro ws
  induction ws with
  | nil =>
    intro cur size hcur hsize hB
    simp [hsize]
  | cons w ws ih =>
    intro cur size hcur hsize hB
    have hlen1 : (joinSp (cur ++ [w])).length = (joinSp cur).length + 1 + w.length :=
      joinSp_length_append_singleton w hcur
    have hmono : (joinSp (cur ++ [w])).length ≤ (joinSp (cur ++ w :: ws)).length := by
      have := joinSp_length_le_append (cur ++ [w]) ws
      rwa [List.append_assoc, List.singleton_append] at this
    have hguard : ¬(size + w.length + 1 > B) := by omega
    rw [List.foldl_cons, chunkStep, if_neg hguard]
    have hstep := ih (cur ++ [w]) (size + w.length + 1) (by simp)
      (by omega)
      (by rw [List.append_assoc, List.singleton_append]; exact hB)
    rw [hstep, List.append_assoc, List.singleton_append]

/-- chunk_text_small: text strictly shorter than the budget that contains at
least one word is a single chunk: the whitespace-normalized input. -/
theorem chunk_text_small (text : PyStr) (B : Nat) (hlen : text.length < B)
    (hw : pySplit text ≠ []) :
    chunk_text text B = [joinSp (pySplit text)] := by
  rcases hsp : pySplit text with _ | ⟨w, ws⟩
  · exact absurd hsp hw
  · have hall : (joinSp (pySplit text)).length ≤ text.length :=
      (pySplit_joinSp_length text).1
    rw [hsp] at hall
    have hwlen : w.length ≤ (joinSp (w :: ws)).length := by
      have := joinSp_length_le_append [w] ws
      rw [List.singleton_append] at this
      simpa [joinSp_singleton] using this
    rw [chunk_text, hsp]
    have hguard : ¬((0 : Nat) + w.length + 1 > B) := by omega
    rw [List.foldl_cons]
    have hstep0 : chunkStep B ⟨[], [], 0⟩ w = ⟨[], [w], 0 + w.length + 1⟩ := by
      rw [chunkStep, if_neg hguard]
      rfl
    rw [hstep0]
    have hrest := foldl_no_close (B := B) ws [w] (0 + w.length + 1) (by simp)
      (by rw [joinSp_singleton]; omega)
      (by rw [List.singleton_append]; omega)
    rw [hrest]
    simp

/-- foldl_chunks_prefix: the loop only ever appends to the finished-chunk
list. -/
theorem foldl_chunks_prefix {B : Nat} :
    ∀ (ws : List PyStr) (st : ChunkState),
      ∃ l, (List.foldl (chunkStep B) st ws).chunks = st.chunks ++ l := by
  intro ws
  induction ws with
  | nil => intro st; exact ⟨[], by simp⟩
  | cons w ws ih =>
    intro st
    rw [List.foldl_cons, chunkStep]
    by_cases hg : st.size + w.length + 1 > B
    · rw [if_pos hg]
      obtain ⟨l, hl⟩ := ih ⟨st.chunks ++ [joinSp st.current], [w], w.length⟩
      exact ⟨joinSp st.current :: l, by rw [hl]; simp⟩
    · rw [if_neg hg]
      obtain ⟨l, hl⟩ := ih ⟨st.chunks, st.current ++ [w], st.size + w.length + 1⟩
      exact ⟨l, hl⟩

/-- chunk_text_head_empty_of_big_first_word: when the first word already
meets the budget, the very first loop iteration closes the still-empty
accumulator, so the first chunk emitted is the empty string. -/
theorem chunk_text_head_empty_of_big_first_word (text : PyStr) (B : Nat)
    {w : PyStr} {ws : List PyStr} (hsp : pySplit text = w :: ws)
    (hlen : B ≤ w.length) :
    (chunk_text text B).head? = some [] := by
  rw [chunk_text, hsp, List.foldl_cons]
  have hguard : (0 : Nat) + w.length + 1 > B := by omega
  have hstep0 : chunkStep B ⟨[], [], 0⟩ w = ⟨[[]], [w], w.length⟩ := by
    rw [chunkStep, if_pos hguard]
    simp [joinSp_nil]
  rw [hstep0]
  obtain ⟨l, hl⟩ := foldl_chunks_prefix (B := B) ws ⟨[[]], [w], w.length⟩
  by_cases hcur : (List.foldl (chunkStep B) ⟨[[]], [w], w.length⟩ ws).current ≠ []
  · rw [if_pos hcur, hl]
    simp
  · rw [if_neg hcur, hl]
    simp

/-- chunk_text_oversized_single: a text consisting of exactly one word whose
length meets the budget chunks to an empty chunk followed by that word. -/
theorem chunk_text_oversized_single {text w : PyStr} {B : Nat}
    (hsp : pySplit text = [w]) (hlen : B ≤ w.length) :
    chunk_text text B = [[], w] := by
  rw [chunk_text, hsp, List.foldl_cons]
  have hguard : (0 : Nat) + w.length + 1 > B := by omega
  have hstep0 : chunkStep B ⟨[], [], 0⟩ w = ⟨[[]], [w], w.length⟩ := by
    rw [chunkStep, if_pos hguard]
    simp [joinSp_nil]
  rw [hstep0, List.foldl_nil, if_pos (by simp : ([w] : List PyStr) ≠ [])]
  simp [joinSp_singleton]

/-! ### A concrete content large enough to produce two chunks -/

/-- bigContent is a 10000-character page text; under the default budget of
10000 it chunks into two chunks (an empty one and itself). -/
def bigContent : PyStr := List.replicate 10000 'a'

theorem takeWhile_notSpace_replicate_a :
    ∀ n : Nat, List.takeWhile notSpace (List.replicate n 'a') = List.replicate n 'a' := by
  intro n
  induction n with
  | zero => rfl
  | succ m ih => rw [List.replicate_succ, List.takeWhile_cons, if_pos (by decide), ih]

theorem dropWhile_notSpace_replicate_a :
    ∀ n : Nat, List.dropWhile notSpace (List.replicate n 'a') = [] := by
  intro n
  induction n with
  | zero => rfl
  | succ m ih => rw [List.replicate_succ, List.dropWhile_cons, if_pos (by decide), ih]

theorem pySplit_replicate_a : ∀ n : Nat, pySplit (List.replicate (n + 1) 'a') =
    [List.replicate (n + 1) 'a'] := by
  intro n
  rw [List.replicate_succ, pySplit_cons_word _ (by decide),
    takeWhile_notSpace_replicate_a, dropWhile_notSpace_replicate_a, pySplit_nil]

theorem pySplit_bigContent : pySplit bigContent = [bigContent] := by
  have h : (10000 : Nat) = 9999 + 1 := by norm_num
  rw [bigContent, h]
  exact pySplit_replicate_a 9999

theorem bigContent_cons : bigContent = 'a' :: List.replicate 9999 'a' := by
  have h : (10000 : Nat) = 9999 + 1 := by norm_num
  rw [bigContent, h, List.replicate_succ]

theorem bigContent_ne_nil : bigContent ≠ [] := by
  rw [bigContent_cons]
  exact List.cons_ne_nil _ _

theorem bigContent_not_error : pyStartswith bigContent (pstr "Error:") = false := by
  rw [bigContent_cons]
  have h : pstr "Error:" = 'E' :: pstr "rror:" := rfl
  rw [pyStartswith, h, List.isPrefixOf_cons₂]
  have hne : ('E' == 'a') = false := by decide
  rw [hne, Bool.false_and]

theorem dropWhile_isPySpace_bigContent :
    List.dropWhile isPySpace bigContent = bigContent := by
  rw [bigContent_cons, List.dropWhile_cons, if_neg (by decide), ← bigContent_cons]

theorem reverse_bigContent : bigContent.reverse = bigContent := by
  rw [bigContent]
  exact List.reverse_replicate _ _

theorem pyStrip_bigContent : pyStrip bigContent = bigContent := by
  rw [pyStrip, dropWhile_isPySpace_bigContent, reverse_bigContent,
    dropWhile_isPySpace_bigContent, reverse_bigContent]

theorem bigContent_length : bigContent.length = 10000 := by
  rw [bigContent, List.length_replicate]

theorem bigContent_chunks : chunk_text bigContent 10000 = [[], bigContent] := by
  refine chunk_text_oversized_single pySplit_bigContent ?_
  rw [bigContent_length]

/-! ### Sentinel-prefix facts about the error strings -/

theorem chunkFailError_sentinel (n : Nat) (e : PyStr) :
    pyStartswith (chunkFailError n e) errorSentinel = true := by
  refine pyStartswith_of_append
    (r := pstr "\nเกิดปัญหาในการสรุปส่วนที่ " ++ natStr n ++ pstr ": " ++ e) ?_
  rw [chunkFailError]
  have h : pstr "## ⚠️ ข้อผิดพลาด\nเกิดปัญหาในการสรุปส่วนที่ " =
      errorSentinel ++ pstr "\nเกิดปัญหาในการสรุปส่วนที่ " := by decide
  rw [h]
  simp [List.append_assoc]

theorem combineFailError_sentinel (e : PyStr) :
    pyStartswith (combineFailError e) errorSentinel = true := by
  refine pyStartswith_of_append (r := pstr "\nเกิดปัญหาในการรวมบทสรุป: " ++ e) ?_
  rw [combineFailError]
  have h : pstr "## ⚠️ ข้อผิดพลาด\nเกิดปัญหาในการรวมบทสรุป: " =
      errorSentinel ++ pstr "\nเกิดปัญหาในการรวมบทสรุป: " := by decide
  rw [h]
  simp [List.append_assoc]

theorem load_from_url_error_error_prefix (e : PyStr) :
    pyStartswith (load_from_url_error e) (pstr "Error:") = true := by
  refine pyStartswith_of_append (r := pstr " " ++ e) ?_
  rw [load_from_url_error]
  have h : pstr "Error: " = pstr "Error:" ++ pstr " " := by decide
  rw [h]
  simp [List.append_assoc]

theorem load_from_url_error_not_sentinel (e : PyStr) :
    pyStartswith (load_from_url_error e) errorSentinel = false := by
  have h1 : load_from_url_error e = 'E' :: (pstr "rror: " ++ e) := rfl
  have h2 : errorSentinel = '#' :: pstr "# ⚠️ ข้อผิดพลาด" := rfl
  rw [pyStartswith, h1, h2, List.isPrefixOf_cons₂]
  have hne : ('#' == 'E') = false := by decide
  rw [hne, Bool.false_and]

theorem isGoodSummary_of_sentinel {s : PyStr}
    (h : pyStartswith s errorSentinel = true) : isGoodSummary s = false := by
  rw [isGoodSummary, h]
  simp

theorem finalize_of_good {s : PyStr} (h : isGoodSummary s = true) :
    finalize s = s := by
  rw [finalize, if_pos h]

/-! ### Event-log helpers -/

theorem combineCalls_multi_loop (url1 content : PyStr) (n : Nat) :
    combineCalls ([Event.fetchCall url1, Event.chunkingCall content] ++
      (List.range n).map Event.chunkCall) = [] := by
  rw [combineCalls, List.filterMap_append]
  rw [List.filterMap_map]
  simp [List.filterMap_eq_nil_iff, Function.comp]

theorem combineCalls_append (a b : List Event) :
    combineCalls (a ++ b) = combineCalls a ++ combineCalls b :=
  List.filterMap_append a b _

theorem combineCalls_single (cs : List PyStr) :
    combineCalls [Event.combineCall cs] = [cs] := rfl

/-! ### Path lemmas for `summarize_url` -/

theorem successes_eq_nil {w : World} {n : Nat}
    (h : ∀ i < n, pyStartswith (summarize_chunk w.clientOk (w.chunkApi i) (i + 1))
      errorSentinel = true) : successes w n = [] := by
  rw [successes, List.filter_eq_nil_iff]
  intro s hs
  rw [multiResults, List.mem_map] at hs
  obtain ⟨i, hi, rfl⟩ := hs
  rw [List.mem_range] at hi
  rw [isGoodSummary_of_sentinel (h i hi)]
  simp

theorem summarize_url_noKey {w : World} (counter : Nat) (url : PyStr)
    (hkey : w.apiKey = false) :
    summarize_url w counter url = ⟨configError, [], counter⟩ := by
  rw [summarize_url, hkey]
  rfl

theorem summarize_url_emptyUrl {w : World} (counter : Nat)
    (hkey : w.apiKey = true) :
    summarize_url w counter [] = ⟨emptyUrlError, [], counter⟩ := by
  rw [summarize_url, hkey]
  rfl

theorem summarize_url_fetchError {w : World} (counter : Nat) {url : PyStr}
    (hkey : w.apiKey = true) (hurl : url ≠ [])
    (hfe : pyStartswith w.fetch (pstr "Error:") = true) :
    summarize_url w counter url =
      ⟨w.fetch, [Event.fetchCall (normalize_url url)], counter⟩ := by
  have hfne : w.fetch ≠ [] := by
    intro hnil
    rw [hnil] at hfe
    have : pyStartswith ([] : PyStr) (pstr "Error:") = false := by
      have h : pstr "Error:" = 'E' :: pstr "rror:" := rfl
      rw [pyStartswith, h]
      rfl
    rw [this] at hfe
    exact Bool.false_ne_true hfe
  rw [summarize_url, hkey]
  simp only [Bool.not_true, Bool.false_eq_true, if_false, if_neg hurl]
  rw [if_pos (Or.inr hfe), if_pos hfne]

theorem summarize_url_multi {w : World} {counter : Nat} {url : PyStr}
    (hkey : w.apiKey = true) (hurl : url ≠ [])
    (hfe : pyStartswith w.fetch (pstr "Error:") = false) (hfne : w.fetch ≠ [])
    (hstrip : pyStrip w.fetch ≠ [])
    (hn : (chunk_text w.fetch 10000).length ≠ 1) :
    summarize_url w counter url =
      (if successes w ((chunk_text w.fetch 10000).length) = [] then
        ⟨totalFailureError,
          [Event.fetchCall (normalize_url url), Event.chunkingCall w.fetch] ++
            (List.range ((chunk_text w.fetch 10000).length)).map Event.chunkCall,
          counter⟩
      else if (successes w ((chunk_text w.fetch 10000).length)).length = 1 then
        ⟨finalize ((successes w ((chunk_text w.fetch 10000).length)).headD []),
          [Event.fetchCall (normalize_url url), Event.chunkingCall w.fetch] ++
            (List.range ((chunk_text w.fetch 10000).length)).map Event.chunkCall,
          counter⟩
      else
        ⟨finalize (combine_summaries w.clientOk w.combineApi counter
            (successes w ((chunk_text w.fetch 10000).length))).result,
          ([Event.fetchCall (normalize_url url), Event.chunkingCall w.fetch] ++
            (List.range ((chunk_text w.fetch 10000).length)).map Event.chunkCall) ++
            [Event.combineCall (successes w ((chunk_text w.fetch 10000).length))],
          (combine_summaries w.clientOk w.combineApi counter
            (successes w ((chunk_text w.fetch 10000).length))).counter⟩) := by
  rw [summarize_url, hkey]
  simp only [Bool.not_true, Bool.false_eq_true, if_false, if_neg hurl]
  rw [if_neg ?hcond, if_neg hstrip, if_neg hn]
  case hcond =>
    intro hor
    rcases hor with hnil | hsw
    · exact hfne hnil
    · rw [hfe] at hsw
      exact Bool.false_ne_true hsw

/-! ### Claim theorems -/

/-- Claim C1: for every non-empty input text and every chunk budget B > 0,
`chunk_text` returns chunks whose word sequences concatenate, in order, to
the word sequence of the input (so no chunk boundary splits inside a word),
and every chunk's length is at most B except a chunk consisting of a single
word whose length exceeds B. -/
theorem chunk_text_correct (text : PyStr) (B : Nat) (hT : text ≠ []) (hB : 0 < B) :
    (((chunk_text text B).map pySplit).flatten = pySplit text) ∧
      ∀ c ∈ chunk_text text B,
        c.length ≤ B ∨ ((pySplit c).length = 1 ∧ B < c.length) := by
  obtain ⟨h1, h2⟩ := chunk_text_sound text B
  refine ⟨h1, ?_⟩
  intro c hc
  by_cases hlen : c.length ≤ B
  · left
    exact hlen
  · right
    rcases (h2 c hc).1 with h | h
    · exact absurd h hlen
    · exact ⟨h, by omega⟩

/-- Witness for C1 at the text "hello world foo" with budget 7. -/
theorem chunk_text_correct_witness :
    (((chunk_text (pstr "hello world foo") 7).map pySplit).flatten =
      pySplit (pstr "hello world foo")) ∧
      ∀ c ∈ chunk_text (pstr "hello world foo") 7,
        c.length ≤ 7 ∨ ((pySplit c).length = 1 ∧ 7 < c.length) :=
  chunk_text_correct (pstr "hello world foo") 7 (by decide) (by decide)

/-- Claim C2, counterexample: the Fetcher's error result for exception text
"timeout" begins with "Error:", not with the warning-glyph sentinel, so the
Fetcher does not use the sentinel channel the claim asserts. -/
theorem fetcher_error_lacks_sentinel :
    pyStartswith (load_from_url_error (pstr "timeout")) errorSentinel = false ∧
      pyStartswith (load_from_url_error (pstr "timeout")) (pstr "Error:") = true := by
  exact ⟨load_from_url_error_not_sentinel (pstr "timeout"),
    load_from_url_error_error_prefix (pstr "timeout")⟩

/-- Claim C2 as amended: every error result other than the Fetcher's begins
with the warning-glyph sentinel heading; the Fetcher's error results instead
begin with "Error:" and never with the sentinel. -/
theorem error_sentinel_spec :
    pyStartswith configError errorSentinel = true ∧
      pyStartswith emptyUrlError errorSentinel = true ∧
      pyStartswith fetchFallbackError errorSentinel = true ∧
      pyStartswith emptyContentError errorSentinel = true ∧
      pyStartswith totalFailureError errorSentinel = true ∧
      pyStartswith apiKeyMissingError errorSentinel = true ∧
      (∀ n e, pyStartswith (chunkFailError n e) errorSentinel = true) ∧
      (∀ e, pyStartswith (combineFailError e) errorSentinel = true) ∧
      (∀ e, pyStartswith (load_from_url_error e) (pstr "Error:") = true) ∧
      (∀ e, pyStartswith (load_from_url_error e) errorSentinel = false) :=
  ⟨by decide, by decide, by decide, by decide, by decide, by decide,
    chunkFailError_sentinel, combineFailError_sentinel,
    load_from_url_error_error_prefix, load_from_url_error_not_sentinel⟩

/-- Witness for the amended C2 at concrete exception texts. -/
theorem error_sentinel_spec_witness :
    pyStartswith (chunkFailError 3 (pstr "boom")) errorSentinel = true ∧
      pyStartswith (load_from_url_error (pstr "x")) errorSentinel = false := by
  obtain ⟨-, -, -, -, -, -, h7, -, -, h10⟩ := error_sentinel_spec
  exact ⟨h7 3 (pstr "boom"), h10 (pstr "x")⟩

set_option maxRecDepth 40000 in
/-- Claim C5, counterexample: a successful `combine_summaries` call entered
with counter 1 leaves the counter at 2 (the post-increment value), yet the
prompt it built contains the closing marker for 1 and not the marker for 2:
the marker carries the pre-increment value, contradicting the claim. -/
theorem combine_prompt_pre_increment :
    (combine_summaries true (ApiResult.ok (pstr "x")) 1 [pstr "a", pstr "b"]).counter = 2 ∧
      (combine_summaries true (ApiResult.ok (pstr "x")) 1 [pstr "a", pstr "b"]).prompt =
        some (combine_prompt 1 [pstr "a", pstr "b"]) ∧
      isSubstr (markerText 2) (combine_prompt 1 [pstr "a", pstr "b"]) = false ∧
      isSubstr (markerText 1) (combine_prompt 1 [pstr "a", pstr "b"]) = true := by
  refine ⟨rfl, rfl, by decide, by decide⟩

/-- Claim C5 as amended: `combine_summaries` builds its prompt with a
closing-marker instruction carrying the pre-increment session counter value;
on success it increments the counter by exactly one and returns the combined
text, and on failure it returns an error-tagged string with the counter
unchanged. -/
theorem combine_summaries_spec (counter : Nat) (summaries : List PyStr) :
    (∀ t, combine_summaries true (ApiResult.ok t) counter summaries =
      ⟨t, counter + 1, some (combine_prompt counter summaries)⟩) ∧
      (∀ e, combine_summaries true (ApiResult.exn e) counter summaries =
        ⟨combineFailError e, counter, some (combine_prompt counter summaries)⟩ ∧
        pyStartswith (combineFailError e) errorSentinel = true) ∧
      isSubstr (markerText counter) (combine_prompt counter summaries) = true := by
  refine ⟨fun t => rfl, fun e => ⟨rfl, combineFailError_sentinel e⟩, ?_⟩
  rw [combine_prompt]
  simp only [List.append_assoc]
  exact isSubstr_of_append _ _ _

/-- Witness for the amended C5 at counter 5 and one summary. -/
theorem combine_summaries_spec_witness :
    combine_summaries true (ApiResult.ok (pstr "T")) 5 [pstr "a"] =
      ⟨pstr "T", 6, some (combine_prompt 5 [pstr "a"])⟩ ∧
      isSubstr (markerText 5) (combine_prompt 5 [pstr "a"]) = true := by
  obtain ⟨h1, -, h3⟩ := combine_summaries_spec 5 [pstr "a"]
  exact ⟨h1 (pstr "T"), h3⟩

/-- Claim C9, counterexample: the single-space text is shorter than the
budget 2, yet `chunk_text` returns no chunk at all rather than exactly one
chunk. -/
theorem whitespace_text_no_chunk :
    (pstr " ").length < 2 ∧ pstr " " ≠ [] ∧
      (chunk_text (pstr " ") 2).length ≠ 1 := by
  decide

/-- Claim C9 as amended: chunking the empty string yields the empty sequence
for every budget, and every text that contains at least one word and is
strictly shorter than the budget yields exactly one chunk: the
whitespace-normalized input. -/
theorem chunk_text_empty_and_small :
    (∀ B : Nat, chunk_text [] B = []) ∧
      ∀ (text : PyStr) (B : Nat), text.length < B → pySplit text ≠ [] →
        chunk_text text B = [joinSp (pySplit text)] := by
  constructor
  · intro B
    rfl
  · exact chunk_text_small

/-- Witness for the amended C9: the empty text with budget 5 and the text
"a b" with budget 4. -/
theorem chunk_text_empty_and_small_witness :
    chunk_text [] 5 = [] ∧
      chunk_text (pstr "a b") 4 = [joinSp (pySplit (pstr "a b"))] := by
  obtain ⟨h1, h2⟩ := chunk_text_empty_and_small
  exact ⟨h1 5, h2 (pstr "a b") 4 (by decide) (by decide)⟩

/-- Claim C10: for every budget B > 0 and every text whose first word has
length at least B, the first chunk emitted by `chunk_text` is the empty
string (the guard closes the still-empty accumulator before placing the
oversized first word). -/
theorem chunk_text_oversized_first_word (text : PyStr) (B : Nat) (w : PyStr)
    (ws : List PyStr) (hB : 0 < B) (hsp : pySplit text = w :: ws)
    (hlen : B ≤ w.length) :
    (chunk_text text B).head? = some [] :=
  chunk_text_head_empty_of_big_first_word text B hsp hlen

/-- Witness for C10 at the text "aaa" with budget 3. -/
theorem chunk_text_oversized_first_word_witness :
    (chunk_text (pstr "aaa") 3).head? = some [] :=
  chunk_text_oversized_first_word (pstr "aaa") 3 (pstr "aaa") []
    (by decide) (by decide) (by decide)

/-! ### Claim theorems on the aggregator -/

/-- cexWorldC3: a one-chunk page whose single summarization call raises. -/
def cexWorldC3 : World :=
  ⟨true, true, pstr "hello world", fun _ => ApiResult.exn (pstr "boom"),
    ApiResult.ok (pstr "C")⟩

/-- Claim C3, counterexample: with N = 1 chunk whose single summarization
call fails, `summarize_url` returns that chunk's own error string, not the
generic total-failure error, so the claim fails at N = 1. -/
theorem single_chunk_failure_returns_chunk_error :
    (chunk_text (pstr "hello world") 10000).length = 1 ∧
      pyStartswith (summarize_chunk cexWorldC3.clientOk (cexWorldC3.chunkApi 0) 0)
        errorSentinel = true ∧
      (summarize_url cexWorldC3 1 (pstr "u")).result = chunkFailError 0 (pstr "boom") ∧
      chunkFailError 0 (pstr "boom") ≠ totalFailureError := by
  exact ⟨by decide, by decide, by decide, by decide⟩

/-- Claim C3 as amended: for every N ≥ 2, when the input produces N chunks
and all N per-chunk summarization calls return error-tagged strings,
`summarize_url` returns the generic total-failure error and
`combine_summaries` is never invoked. -/
theorem summarize_url_total_failure (w : World) (counter : Nat) (url : PyStr)
    (hkey : w.apiKey = true) (hurl : url ≠ [])
    (hfe : pyStartswith w.fetch (pstr "Error:") = false) (hfne : w.fetch ≠ [])
    (hstrip : pyStrip w.fetch ≠ [])
    (hN : 2 ≤ (chunk_text w.fetch 10000).length)
    (hfail : ∀ i < (chunk_text w.fetch 10000).length,
      pyStartswith (summarize_chunk w.clientOk (w.chunkApi i) (i + 1))
        errorSentinel = true) :
    (summarize_url w counter url).result = totalFailureError ∧
      combineCalls (summarize_url w counter url).events = [] := by
  have hn1 : (chunk_text w.fetch 10000).length ≠ 1 := by omega
  rw [summarize_url_multi hkey hurl hfe hfne hstrip hn1,
    if_pos (successes_eq_nil hfail)]
  exact ⟨rfl, combineCalls_multi_loop _ _ _⟩

/-- witWorldC3: a two-chunk page on which every summarization call raises. -/
def witWorldC3 : World :=
  ⟨true, true, bigContent, fun _ => ApiResult.exn (pstr "boom"),
    ApiResult.ok (pstr "C")⟩

/-- Witness for the amended C3 on a two-chunk page with all calls failing. -/
theorem summarize_url_total_failure_witness :
    (summarize_url witWorldC3 1 (pstr "u")).result = totalFailureError ∧
      combineCalls (summarize_url witWorldC3 1 (pstr "u")).events = [] :=
  summarize_url_total_failure witWorldC3 1 (pstr "u") rfl (by decide)
    bigContent_not_error bigContent_ne_nil
    (by rw [show witWorldC3.fetch = bigContent from rfl, pyStrip_bigContent]
        exact bigContent_ne_nil)
    (by rw [show witWorldC3.fetch = bigContent from rfl, bigContent_chunks]
        decide)
    (fun i _ => by
      rw [show summarize_chunk witWorldC3.clientOk (witWorldC3.chunkApi i) (i + 1) =
        chunkFailError (i + 1) (pstr "boom") from rfl]
      exact chunkFailError_sentinel (i + 1) (pstr "boom"))

/-- cexWorldC4: a two-chunk page whose first call returns the empty string
and whose second returns "Q". -/
def cexWorldC4 : World :=
  ⟨true, true, bigContent,
    fun i => if i = 0 then ApiResult.ok [] else ApiResult.ok (pstr "Q"),
    ApiResult.ok (pstr "C")⟩

/-- Claim C4, counterexample: N = 2 chunks, both per-chunk calls return
non-error-tagged strings (M = 2 ≥ 2 successes in the claim's sense), yet
`combine_summaries` is never invoked, because the empty success is dropped by
the collection filter. -/
theorem empty_success_not_combined :
    (chunk_text bigContent 10000).length = 2 ∧
      multiResults cexWorldC4 2 = [[], pstr "Q"] ∧
      pyStartswith ([] : PyStr) errorSentinel = false ∧
      pyStartswith (pstr "Q") errorSentinel = false ∧
      combineCalls (summarize_url cexWorldC4 1 (pstr "u")).events = [] := by
  have hlen : (chunk_text cexWorldC4.fetch 10000).length = 2 := by
    rw [show cexWorldC4.fetch = bigContent from rfl, bigContent_chunks]
    rfl
  refine ⟨by rw [bigContent_chunks]; rfl, by decide, by decide, by decide, ?_⟩
  rw [summarize_url_multi (w := cexWorldC4) rfl (by decide) bigContent_not_error
    bigContent_ne_nil
    (by rw [show cexWorldC4.fetch = bigContent from rfl, pyStrip_bigContent]
        exact bigContent_ne_nil)
    (by rw [hlen]; omega)]
  rw [hlen]
  have hs : successes cexWorldC4 2 = [pstr "Q"] := by decide
  rw [hs, if_neg (by decide), if_pos (by decide)]
  exact combineCalls_multi_loop _ _ _

/-- Claim C4 as amended: whenever at least two per-chunk calls return
non-empty non-error-tagged summaries, `combine_summaries` is invoked exactly
once, with exactly those summaries, in the original chunk order. -/
theorem summarize_url_combines_successes (w : World) (counter : Nat) (url : PyStr)
    (hkey : w.apiKey = true) (hurl : url ≠ [])
    (hfe : pyStartswith w.fetch (pstr "Error:") = false) (hfne : w.fetch ≠ [])
    (hstrip : pyStrip w.fetch ≠ [])
    (hN : 2 ≤ (chunk_text w.fetch 10000).length)
    (hM : 2 ≤ (successes w ((chunk_text w.fetch 10000).length)).length) :
    combineCalls (summarize_url w counter url).events =
      [successes w ((chunk_text w.fetch 10000).length)] := by
  have hn1 : (chunk_text w.fetch 10000).length ≠ 1 := by omega
  have hne : successes w ((chunk_text w.fetch 10000).length) ≠ [] := by
    intro h
    rw [h] at hM
    simp at hM
  have hne1 : (successes w ((chunk_text w.fetch 10000).length)).length ≠ 1 := by
    omega
  rw [summarize_url_multi hkey hurl hfe hfne hstrip hn1, if_neg hne, if_neg hne1]
  show combineCalls (_ ++ [Event.combineCall _]) = _
  rw [combineCalls_append, combineCalls_multi_loop, combineCalls_single,
    List.nil_append]

/-- witWorldC4: a two-chunk page whose calls return "P" and "Q". -/
def witWorldC4 : World :=
  ⟨true, true, bigContent,
    fun i => if i = 0 then ApiResult.ok (pstr "P") else ApiResult.ok (pstr "Q"),
    ApiResult.ok (pstr "C")⟩

/-- Witness for the amended C4: two nonempty successes are recombined. -/
theorem summarize_url_combines_successes_witness :
    combineCalls (summarize_url witWorldC4 1 (pstr "u")).events =
      [successes witWorldC4 ((chunk_text witWorldC4.fetch 10000).length)] :=
  summarize_url_combines_successes witWorldC4 1 (pstr "u") rfl (by decide)
    bigContent_not_error bigContent_ne_nil
    (by rw [show witWorldC4.fetch = bigContent from rfl, pyStrip_bigContent]
        exact bigContent_ne_nil)
    (by rw [show witWorldC4.fetch = bigContent from rfl, bigContent_chunks]
        decide)
    (by rw [show witWorldC4.fetch = bigContent from rfl, bigContent_chunks]
        decide)

/-- cexWorldC6: a two-chunk page whose first call raises and whose second
returns the empty string. -/
def cexWorldC6 : World :=
  ⟨true, true, bigContent,
    fun i => if i = 0 then ApiResult.exn (pstr "b") else ApiResult.ok [],
    ApiResult.ok (pstr "C")⟩

/-- Claim C6, counterexample: N = 2 chunks, exactly one per-chunk call
returns a non-error-tagged string (the empty string), yet `summarize_url`
returns the generic total-failure error rather than that summary verbatim. -/
theorem empty_single_success_not_returned :
    (chunk_text bigContent 10000).length = 2 ∧
      multiResults cexWorldC6 2 = [chunkFailError 1 (pstr "b"), []] ∧
      pyStartswith (chunkFailError 1 (pstr "b")) errorSentinel = true ∧
      pyStartswith ([] : PyStr) errorSentinel = false ∧
      (summarize_url cexWorldC6 1 (pstr "u")).result = totalFailureError ∧
      totalFailureError ≠ ([] : PyStr) := by
  have hlen : (chunk_text cexWorldC6.fetch 10000).length = 2 := by
    rw [show cexWorldC6.fetch = bigContent from rfl, bigContent_chunks]
    rfl
  refine ⟨by rw [bigContent_chunks]; rfl, by decide, by decide, by decide, ?_, by decide⟩
  rw [summarize_url_multi (w := cexWorldC6) rfl (by decide) bigContent_not_error
    bigContent_ne_nil
    (by rw [show cexWorldC6.fetch = bigContent from rfl, pyStrip_bigContent]
        exact bigContent_ne_nil)
    (by rw [hlen]; omega)]
  rw [hlen]
  have hs : successes cexWorldC6 2 = [] := by decide
  rw [hs, if_pos rfl]

/-- Claim C6 as amended: with N > 1 chunks, when exactly one per-chunk call
returns a non-empty non-error-tagged summary, `summarize_url` returns that
summary verbatim and `combine_summaries` is never invoked. -/
theorem summarize_url_single_success (w : World) (counter : Nat) (url : PyStr)
    (s : PyStr) (hkey : w.apiKey = true) (hurl : url ≠ [])
    (hfe : pyStartswith w.fetch (pstr "Error:") = false) (hfne : w.fetch ≠ [])
    (hstrip : pyStrip w.fetch ≠ [])
    (hN : 2 ≤ (chunk_text w.fetch 10000).length)
    (hs : successes w ((chunk_text w.fetch 10000).length) = [s]) :
    (summarize_url w counter url).result = s ∧
      combineCalls (summarize_url w counter url).events = [] := by
  have hn1 : (chunk_text w.fetch 10000).length ≠ 1 := by omega
  have hgood : isGoodSummary s = true := by
    have hmem : s ∈ successes w ((chunk_text w.fetch 10000).length) := by
      rw [hs]
      exact List.mem_singleton.mpr rfl
    rw [successes] at hmem
    exact (List.mem_filter.mp hmem).2
  rw [summarize_url_multi hkey hurl hfe hfne hstrip hn1,
    if_neg (by rw [hs]; exact List.cons_ne_nil s []),
    if_pos (by rw [hs]; rfl)]
  rw [hs]
  exact ⟨finalize_of_good hgood, combineCalls_multi_loop _ _ _⟩

/-- witWorldC6: a two-chunk page whose first call raises and whose second
returns "P". -/
def witWorldC6 : World :=
  ⟨true, true, bigContent,
    fun i => if i = 0 then ApiResult.exn (pstr "b") else ApiResult.ok (pstr "P"),
    ApiResult.ok (pstr "C")⟩

/-- Witness for the amended C6: the lone nonempty success is returned. -/
theorem summarize_url_single_success_witness :
    (summarize_url witWorldC6 1 (pstr "u")).result = pstr "P" ∧
      combineCalls (summarize_url witWorldC6 1 (pstr "u")).events = [] :=
  summarize_url_single_success witWorldC6 1 (pstr "u") (pstr "P") rfl (by decide)
    bigContent_not_error bigContent_ne_nil
    (by rw [show witWorldC6.fetch = bigContent from rfl, pyStrip_bigContent]
        exact bigContent_ne_nil)
    (by rw [show witWorldC6.fetch = bigContent from rfl, bigContent_chunks]
        decide)
    (by rw [show witWorldC6.fetch = bigContent from rfl, bigContent_chunks]
        decide)

/-- cexWorldC7: the environment without the API key. -/
def cexWorldC7 : World :=
  ⟨false, true, [], fun _ => ApiResult.exn [], ApiResult.exn []⟩

/-- Claim C7, counterexample: when the API key is not configured,
`summarize_url("")` returns the missing-key configuration error, not the
empty-URL validation error (lines 163-164 run before the URL check). -/
theorem missing_key_beats_empty_url :
    summarize_url cexWorldC7 1 [] = ⟨configError, [], 1⟩ ∧
      configError ≠ emptyUrlError := by
  exact ⟨summarize_url_noKey 1 [] rfl, by decide⟩

/-- Claim C7 as amended: `summarize_url("")` performs no external call at
all, and when the API key is configured it returns the empty-URL validation
error with the counter unchanged. -/
theorem summarize_url_empty_url (w : World) (counter : Nat) :
    (summarize_url w counter []).events = [] ∧
      (w.apiKey = true → summarize_url w counter [] = ⟨emptyUrlError, [], counter⟩) := by
  constructor
  · cases hk : w.apiKey
    · rw [summarize_url_noKey counter [] hk]
    · rw [summarize_url_emptyUrl counter hk]
  · intro hk
    exact summarize_url_emptyUrl counter hk

/-- Witness for the amended C7 in a configured environment. -/
theorem summarize_url_empty_url_witness :
    (summarize_url ⟨true, true, [], fun _ => ApiResult.exn [], ApiResult.exn []⟩ 3 []).events
        = [] ∧
      summarize_url ⟨true, true, [], fun _ => ApiResult.exn [], ApiResult.exn []⟩ 3 [] =
        ⟨emptyUrlError, [], 3⟩ := by
  obtain ⟨h1, h2⟩ :=
    summarize_url_empty_url ⟨true, true, [], fun _ => ApiResult.exn [], ApiResult.exn []⟩ 3
  exact ⟨h1, h2 rfl⟩

/-- Claim C8: whenever `load_from_url` returns an error-tagged string (its
errors are exactly the "Error:"-prefixed strings), `summarize_url` returns
that string unchanged, and its only external action is the fetch itself:
no chunking, no per-chunk summarization, no recombination. -/
theorem summarize_url_fetch_error_propagation (w : World) (counter : Nat)
    (url : PyStr) (hkey : w.apiKey = true) (hurl : url ≠ [])
    (hfe : pyStartswith w.fetch (pstr "Error:") = true) :
    (summarize_url w counter url).result = w.fetch ∧
      (summarize_url w counter url).events = [Event.fetchCall (normalize_url url)] := by
  rw [summarize_url_fetchError counter hkey hurl hfe]
  exact ⟨rfl, rfl⟩

/-- witWorldC8: a fetch that failed with a network error. -/
def witWorldC8 : World :=
  ⟨true, true, pstr "Error: boom", fun _ => ApiResult.ok (pstr "S"),
    ApiResult.ok (pstr "C")⟩

/-- Witness for C8: the fetch error "Error: boom" is propagated verbatim. -/
theorem summarize_url_fetch_error_propagation_witness :
    (summarize_url witWorldC8 1 (pstr "example.com")).result = witWorldC8.fetch ∧
      (summarize_url witWorldC8 1 (pstr "example.com")).events =
        [Event.fetchCall (normalize_url (pstr "example.com"))] :=
  summarize_url_fetch_error_propagation witWorldC8 1 (pstr "example.com") rfl
    (by decide) (by decide)

end TyphoonUI
